import Mathlib

/-!
Shallow embedding of the paper-trading core of this repository
(`option_chain.py` and `live_nifty_fourbar_adx_jugaad.py`), with theorems
checking the specification's claims against it.

Python float arithmetic is modelled with exact rationals (`ℚ`); float
literals of the source (such as `0.001` and `1e-9`) become the
corresponding rationals.  Wall-clock timestamps (`datetime.now()`) and the
JSON rendering of audit records are outside the model: an audit record
keeps the fields every event carries (`event`, `message`, `capital`), and
timestamps are threaded through as caller-supplied strings.
-/

/-- The `NSE_LOT_SIZE` dictionary of `option_chain.py`: the single entry
maps `"NIFTY"` to `50`; `.get` on any other key yields `none`. -/
def NSE_LOT_SIZE (symbol : String) : Option ℕ :=
  if symbol = "NIFTY" then some 50 else none

/-- `get_lot_size` of `option_chain.py`: dictionary lookup on the
upper-cased symbol with default fallback `50`. -/
def get_lot_size (symbol : String) : ℕ :=
  (NSE_LOT_SIZE symbol.toUpper).getD 50

/-- An option-contract leg as consumed by `PaperBroker`.  Of the leg dict
built by `_pick`, the broker reads only `"symbol"` (for the lot size), so
only that field is modelled; `_pick` always populates it. -/
structure Contract where
  symbol : String
deriving Repr, DecidableEq

/-- The `self.position` dict of `PaperBroker`:
`{"side": ..., "entry": ..., "qty": ..., "contract": ...}`. -/
structure Position where
  side : String
  entry : ℚ
  qty : ℕ
  contract : Contract
deriving Repr, DecidableEq

/-- A closed-trade record as appended by `PaperBroker.exit`. -/
structure Trade where
  side : String
  entry_price : ℚ
  exit_price : ℚ
  qty : ℕ
  contract : Contract
  entry_time : Option String
  exit_time : Option String
  pnl : ℚ
  capital_post : ℚ
  reason : Option String
deriving Repr, DecidableEq

/-- One audit record written by `PaperBroker.log_event`.  The fields every
record carries are kept; the wall-clock `"time"` field and the
event-specific `extra` payload (whose values duplicate broker state already
modelled elsewhere) are elided, as is the interpolated figure text of the
insufficient-capital message. -/
structure LogEvent where
  event : String
  message : String
  capital : ℚ
deriving Repr, DecidableEq

/-- The `PaperBroker` state: `__init__` fields of `option_chain.py`.  The
append-only `log_file` is modelled as the in-memory list `log` of the
records written to it. -/
structure PaperBroker where
  initial_capital : ℚ
  capital : ℚ
  position : Option Position
  open_time : Option String
  closed_trades : List Trade
  slippage_pct : ℚ
  log : List LogEvent
deriving Repr, DecidableEq

/-- `PaperBroker.__init__(initial_capital, log_file, slippage_pct)`. -/
def PaperBroker.init (initial_capital slippage_pct : ℚ) : PaperBroker :=
  { initial_capital := initial_capital
    capital := initial_capital
    position := none
    open_time := none
    closed_trades := []
    slippage_pct := slippage_pct
    log := [] }

/-- `PaperBroker.log_event`: appends one record carrying the event tag,
message and current capital to the audit log. -/
def PaperBroker.log_event (b : PaperBroker) (event message : String) : PaperBroker :=
  { b with log := b.log ++ [{ event := event, message := message, capital := b.capital }] }

/-- `PaperBroker.enter(side, price, contract, timestamp)`: rejects when a
position is already held or capital is below `price * qty`; otherwise fills
at `price + slippage_pct * price` for `"LONG"` (else minus), debits capital
by the unadjusted `price * qty`, and logs an `OPEN` event.  Returns the new
broker state and the Python return value (`True` or `False`). -/
def PaperBroker.enter (b : PaperBroker) (side : String) (price : ℚ)
    (contract : Contract) (timestamp : Option String) : PaperBroker × Bool :=
  if b.position.isSome then
    (b.log_event "REJECTED" "Already in position", false)
  else
    let lot_size := get_lot_size contract.symbol
    let qty := lot_size
    let cost := price * (qty : ℚ)
    if b.capital < cost then
      (b.log_event "REJECTED" "Insufficient capital for trade", false)
    else
      let fill_price :=
        price + (if side = "LONG" then b.slippage_pct * price else -(b.slippage_pct * price))
      let b1 : PaperBroker :=
        { b with
          position := some { side := side, entry := fill_price, qty := qty, contract := contract }
          open_time := timestamp
          capital := b.capital - cost }
      (b1.log_event "OPEN" ("Entered " ++ side), true)

/-- `PaperBroker.exit(price, timestamp, reason)`: rejects when flat;
otherwise fills at `price - slippage_pct * price` for `"LONG"` (else plus),
realises pnl, credits capital by `fill_price * qty`, appends the closed
trade, clears the position and logs a `CLOSE` event.  Returns the new
broker state and the Python return value (`False` becomes `none`, the pnl
becomes `some pnl`). -/
def PaperBroker.exit (b : PaperBroker) (price : ℚ)
    (timestamp : Option String) (reason : Option String) : PaperBroker × Option ℚ :=
  match b.position with
  | none => (b.log_event "REJECTED" "No open position to exit", none)
  | some pos =>
    let side := pos.side
    let lot := pos.qty
    let entry := pos.entry
    let contract := pos.contract
    let fill_price :=
      price - (if side = "LONG" then b.slippage_pct * price else -(b.slippage_pct * price))
    let pnl :=
      if side = "LONG" then (fill_price - entry) * (lot : ℚ) else (entry - fill_price) * (lot : ℚ)
    let capital1 := b.capital + fill_price * (lot : ℚ)
    let trade : Trade :=
      { side := side
        entry_price := entry
        exit_price := fill_price
        qty := lot
        contract := contract
        entry_time := b.open_time
        exit_time := timestamp
        pnl := pnl
        capital_post := capital1
        reason := reason }
    let b1 : PaperBroker :=
      { b with
        capital := capital1
        closed_trades := b.closed_trades ++ [trade]
        position := none
        open_time := none }
    (b1.log_event "CLOSE" "Closed position", some pnl)

/-- `PaperBroker.update_mark_to_market(last_price)`: unrealised pnl of the
open position, `0` when flat.  Pure read. -/
def PaperBroker.update_mark_to_market (b : PaperBroker) (last_price : ℚ) : ℚ :=
  match b.position with
  | none => 0
  | some pos =>
    if pos.side = "LONG" then (last_price - pos.entry) * (pos.qty : ℚ)
    else (pos.entry - last_price) * (pos.qty : ℚ)

/-- The dict returned by `PaperBroker.summary()`. -/
structure Summary where
  initial_capital : ℚ
  current_capital : ℚ
  total_pnl : ℚ
  num_trades : ℕ
deriving Repr, DecidableEq

/-- `PaperBroker.summary()`. -/
def PaperBroker.summary (b : PaperBroker) : Summary :=
  { initial_capital := b.initial_capital
    current_capital := b.capital
    total_pnl := (b.closed_trades.map Trade.pnl).sum
    num_trades := b.closed_trades.length }

/-- The `self.prev` dict of `ADXTracker` in
`live_nifty_fourbar_adx_jugaad.py`; `pdm_s` and `mdm_s` stand for the
source keys `"+dm_s"` and `"-dm_s"`. -/
structure ADXPrev where
  close : ℚ
  high : ℚ
  low : ℚ
  tr_s : ℚ
  pdm_s : ℚ
  mdm_s : ℚ
  adx : ℚ
deriving Repr, DecidableEq

/-- `ADXTracker` state.  Python keeps `prev = None` until seeded; that is
modelled by `ready = false` together with a placeholder `prev` that
`update` never reads before overwriting it through `seed`. -/
structure ADXTracker where
  p : ℚ
  ready : Bool
  prev : ADXPrev
deriving Repr, DecidableEq

/-- `ADXTracker.__init__(period)`. -/
def ADXTracker.init (period : ℚ) : ADXTracker :=
  { p := period, ready := false, prev := ⟨0, 0, 0, 0, 0, 0, 0⟩ }

/-- `ADXTracker.seed(close)`: `1e-9` becomes the exact rational. -/
def ADXTracker.seed (t : ADXTracker) (close : ℚ) : ADXTracker :=
  { t with
    ready := true
    prev :=
      { close := close, high := close, low := close
        tr_s := 1/1000000000, pdm_s := 0, mdm_s := 0, adx := 0 } }

/-- The directional-movement step of `ADXTracker.update` (source lines
92-95): the raw moves clipped at 0, then `if plus_dm < minus_dm: plus_dm
= 0.0 else: minus_dm = 0.0`.  Returns the surviving pair
`(plus_dm, minus_dm)`. -/
def dmStep (high low prev_high prev_low : ℚ) : ℚ × ℚ :=
  let plus_dm := max (high - prev_high) 0
  let minus_dm := max (prev_low - low) 0
  if plus_dm < minus_dm then (0, minus_dm) else (plus_dm, 0)

/-- The directional-index ratio of `ADXTracker.update` (source line
99/100): `100.0 * (dm_s / tr_s) if tr_s else 0.0` — the Python float
truthiness test becomes a comparison with `0`. -/
def diNext (tr_s dm_s : ℚ) : ℚ :=
  if tr_s = 0 then 0 else 100 * (dm_s / tr_s)

/-- The `dx` ratio of `ADXTracker.update` (source line 101), with the
guarded zero denominator. -/
def dxNext (plus_di minus_di : ℚ) : ℚ :=
  if plus_di + minus_di = 0 then 0
  else 100 * (|plus_di - minus_di| / (plus_di + minus_di))

/-- The trend-strength smoothing of `ADXTracker.update` (source line
102): raw `dx` when the previous `adx` is 0 (Python falsiness), Wilder
smoothing otherwise. -/
def adxNext (p adx0 dx : ℚ) : ℚ :=
  if adx0 = 0 then dx else ((adx0 * (p - 1)) + dx) / p

/-- `ADXTracker.update(high, low, close)`: seeds first when not ready,
then runs the Wilder recurrence.  Returns the new tracker state together
with the returned `adx` value. -/
def ADXTracker.update (t0 : ADXTracker) (high low close : ℚ) : ADXTracker × ℚ :=
  let t := if t0.ready then t0 else t0.seed close
  let p := t.p
  let prev := t.prev
  let tr := max (high - low) (max |high - prev.close| |low - prev.close|)
  let dm := dmStep high low prev.high prev.low
  let tr_s := prev.tr_s - prev.tr_s / p + tr
  let pdm_s := prev.pdm_s - prev.pdm_s / p + dm.1
  let mdm_s := prev.mdm_s - prev.mdm_s / p + dm.2
  let plus_di := diNext tr_s pdm_s
  let minus_di := diNext tr_s mdm_s
  let dx := dxNext plus_di minus_di
  let adx := adxNext p prev.adx dx
  ({ t with
     prev :=
       { close := close, high := high, low := low
         tr_s := tr_s, pdm_s := pdm_s, mdm_s := mdm_s, adx := adx } }, adx)

/-- One row of the 15-minute `bars` dataframe of the runner; `slot` is the
15-minute bucket index standing for the `datetime` column (one unit of
`slot` is one bucket width), and `open_` is the `open` column. -/
structure TimedBar where
  slot : ℤ
  open_ : ℚ
  high : ℚ
  low : ℚ
  close : ℚ
deriving Repr, DecidableEq, Inhabited

/-- The dict returned by `four_bar_signal`. -/
structure Signal where
  dir : String
  trigger : ℚ
  box_high : ℚ
  box_low : ℚ
deriving Repr, DecidableEq

/-- `four_bar_signal(df_15m)` of `live_nifty_fourbar_adx_jugaad.py`:
`tail(4)` becomes dropping all but the last four rows. -/
def four_bar_signal (df_15m : List TimedBar) : Option Signal :=
  if df_15m.length < 4 then none
  else
    match df_15m.drop (df_15m.length - 4) with
    | [b0, b1, b2, b3] =>
      let inc := b1.close > b0.close ∧ b2.close > b1.close ∧ b3.close > b2.close
      let dcr := b1.close < b0.close ∧ b2.close < b1.close ∧ b3.close < b2.close
      let box_high := max (max (max b0.high b1.high) b2.high) b3.high
      let box_low := min (min (min b0.low b1.low) b2.low) b3.low
      if inc then
        some { dir := "LONG", trigger := box_high, box_high := box_high, box_low := box_low }
      else if dcr then
        some { dir := "SHORT", trigger := box_low, box_high := box_high, box_low := box_low }
      else none
    | _ => none

/-- The 15-minute aggregation step of `run` (source lines 151-162): when
`bars` is empty or the last row's bucket is strictly earlier than the
current `slot`, a fresh row `open=high=low=close=spot` is appended;
otherwise the last row is updated in place. -/
def aggregate (bars : List TimedBar) (slot : ℤ) (spot : ℚ) : List TimedBar :=
  match bars.getLast? with
  | none => bars ++ [{ slot := slot, open_ := spot, high := spot, low := spot, close := spot }]
  | some lb =>
    if lb.slot < slot then
      bars ++ [{ slot := slot, open_ := spot, high := spot, low := spot, close := spot }]
    else
      bars.dropLast ++
        [{ lb with high := max lb.high spot, low := min lb.low spot, close := spot }]

/-- The triple `(day_high, day_low, day_close)` the runner passes to
`adx.update` on a completed-bar boundary (source lines 170-173): built
from the indicator's previous close (the current `spot` when unseeded) and
the high, low and close of the LAST row of `bars` — which at this point is
the freshly opened current bucket, not the completed bar. -/
def fedBar (bars : List TimedBar) (adx : ADXTracker) (spot : ℚ) : ℚ × ℚ × ℚ :=
  let prev_close := if adx.ready then adx.prev.close else spot
  let lb := bars.getLast?.getD default
  (max prev_close lb.high, min prev_close lb.low, lb.close)

/-- The completed-bar evaluation step of `run` (source lines 164-176):
when the boundary test `last_completed is None or completed >
last_completed` passes, the tracker is updated with `fedBar` and the
breakout detector runs over the rows with `datetime <= completed`.
Returns `(last_completed, adx, adx_val, sig)` after the step; on a
non-boundary tick nothing happens (`adx_val` is reported as 0, `sig` as
`none`). -/
def evalStep (bars : List TimedBar) (last_completed : Option ℤ) (adx : ADXTracker)
    (slot : ℤ) (spot : ℚ) : Option ℤ × ADXTracker × ℚ × Option Signal :=
  let completed := slot - 1
  let isNewBoundary : Bool :=
    match last_completed with
    | none => true
    | some lc => decide (lc < completed)
  if isNewBoundary then
    let f := fedBar bars adx spot
    let u := adx.update f.1 f.2.1 f.2.2
    let df_comp := bars.filter (fun b => decide (b.slot ≤ completed))
    let sig := if 4 ≤ df_comp.length then four_bar_signal df_comp else none
    (some completed, u.1, u.2, sig)
  else
    (last_completed, adx, 0, none)

/-- Well-formedness of one OHLC row: `low ≤ open ≤ high` and
`low ≤ close ≤ high`. -/
def BarWF (b : TimedBar) : Prop :=
  b.low ≤ b.open_ ∧ b.open_ ≤ b.high ∧ b.low ≤ b.close ∧ b.close ≤ b.high

/-- The state invariant of a seeded tracker: strictly positive smoothed
true range, nonnegative smoothed directional moves, trend strength within
`[0, 100]`. -/
def ADXInv (t : ADXTracker) : Prop :=
  0 < t.prev.tr_s ∧ 0 ≤ t.prev.pdm_s ∧ 0 ≤ t.prev.mdm_s
    ∧ 0 ≤ t.prev.adx ∧ t.prev.adx ≤ 100

/-- Folds a sequence of `(high, low, close)` bars through
`ADXTracker.update`, collecting the returned trend-strength readings. -/
def runUpdates : ADXTracker → List (ℚ × ℚ × ℚ) → ADXTracker × List ℚ
  | t, [] => (t, [])
  | t, x :: rest =>
    let u := t.update x.1 x.2.1 x.2.2
    let r := runUpdates u.1 rest
    (r.1, u.2 :: r.2)

/-- `NSE_LOT_SIZE` holds only the value `50` and the `.get` fallback is
also `50`, so every symbol resolves to lot size `50`. -/
theorem get_lot_size_eq (s : String) : get_lot_size s = 50 := by
  unfold get_lot_size NSE_LOT_SIZE
  split <;> rfl

/-- C3: a successful `enter` from the flat state records an entry fill of
`quote_price * (1 + slippage)` for LONG and `quote_price * (1 - slippage)`
for SHORT, while capital is debited by the unadjusted
`quote_price * quantity`, with the quantity equal to the contract symbol's
lot size (50 for NIFTY). -/
theorem C3_entry_fill_and_capital_debit (b : PaperBroker) (side : String) (price : ℚ)
    (contract : Contract) (ts : Option String)
    (hflat : b.position = none)
    (hcap : ¬ b.capital < price * (get_lot_size contract.symbol : ℚ)) :
    (b.enter side price contract ts).2 = true
    ∧ (b.enter side price contract ts).1.capital
        = b.capital - price * (get_lot_size contract.symbol : ℚ)
    ∧ get_lot_size contract.symbol = 50
    ∧ get_lot_size "NIFTY" = 50
    ∧ ∃ pos : Position,
        (b.enter side price contract ts).1.position = some pos
        ∧ pos.qty = get_lot_size contract.symbol
        ∧ pos.contract = contract
        ∧ pos.side = side
        ∧ (side = "LONG" → pos.entry = price * (1 + b.slippage_pct))
        ∧ (side = "SHORT" → pos.entry = price * (1 - b.slippage_pct)) := by
  simp only [PaperBroker.enter, hflat, Option.isSome_none, Bool.false_eq_true, if_false,
    if_neg hcap, PaperBroker.log_event]
  refine ⟨trivial, trivial, get_lot_size_eq _, get_lot_size_eq _, ?_⟩
  refine ⟨_, rfl, rfl, rfl, rfl, ?_, ?_⟩
  · intro hside
    rw [if_pos hside]; ring
  · intro hside
    rw [hside, if_neg (by simp)]; ring

theorem C3_witness :
    ((PaperBroker.init 100000 (1/1000)).enter "LONG" 100 ⟨"NIFTY"⟩ (some "t")).2 = true
    ∧ ((PaperBroker.init 100000 (1/1000)).enter "LONG" 100 ⟨"NIFTY"⟩ (some "t")).1.capital
        = 100000 - 100 * ((get_lot_size "NIFTY" : ℕ) : ℚ) := by
  have h := C3_entry_fill_and_capital_debit (PaperBroker.init 100000 (1/1000)) "LONG" 100
    ⟨"NIFTY"⟩ (some "t") rfl (by norm_num [PaperBroker.init, get_lot_size_eq])
  exact ⟨h.1, h.2.1⟩

/-- C4: every rejected operation returns failure and leaves the broker
state unchanged except for appending exactly one `REJECTED` audit record:
`enter` while a position is held, `enter` with capital below
`price * qty`, and `exit` while flat. -/
theorem C4_rejections_mutate_nothing :
    (∀ (b : PaperBroker) (side : String) (price : ℚ) (contract : Contract)
        (ts : Option String) (pos : Position), b.position = some pos →
      (b.enter side price contract ts).2 = false
      ∧ (b.enter side price contract ts).1
          = { b with log := b.log ++ [⟨"REJECTED", "Already in position", b.capital⟩] })
    ∧ (∀ (b : PaperBroker) (side : String) (price : ℚ) (contract : Contract)
        (ts : Option String), b.position = none →
        b.capital < price * (get_lot_size contract.symbol : ℚ) →
      (b.enter side price contract ts).2 = false
      ∧ (b.enter side price contract ts).1
          = { b with log := b.log ++ [⟨"REJECTED", "Insufficient capital for trade", b.capital⟩] })
    ∧ (∀ (b : PaperBroker) (price : ℚ) (ts r : Option String), b.position = none →
      (b.exit price ts r).2 = none
      ∧ (b.exit price ts r).1
          = { b with log := b.log ++ [⟨"REJECTED", "No open position to exit", b.capital⟩] }) := by
  refine ⟨?_, ?_, ?_⟩
  · intro b side price contract ts pos hpos
    simp only [PaperBroker.enter, hpos, Option.isSome_some, if_true, PaperBroker.log_event]
    exact ⟨trivial, trivial⟩
  · intro b side price contract ts hflat hcap
    simp only [PaperBroker.enter, hflat, Option.isSome_none, Bool.false_eq_true, if_false,
      if_pos hcap, PaperBroker.log_event]
    exact ⟨trivial, trivial⟩
  · intro b price ts r hflat
    simp only [PaperBroker.exit, hflat, PaperBroker.log_event]
    exact ⟨trivial, trivial⟩

theorem C4_witness :
    ((PaperBroker.init 100000 (1/1000)).exit 110 (some "t") (some "r")).2 = none
    ∧ ((PaperBroker.init 100000 (1/1000)).exit 110 (some "t") (some "r")).1
        = { PaperBroker.init 100000 (1/1000) with
            log := (PaperBroker.init 100000 (1/1000)).log
              ++ [⟨"REJECTED", "No open position to exit", (PaperBroker.init 100000 (1/1000)).capital⟩] } :=
  C4_rejections_mutate_nothing.2.2 (PaperBroker.init 100000 (1/1000)) 110 (some "t") (some "r") rfl

/-- C2: from a flat account with slippage `0.001`, `enter LONG 100` then
`exit 110` fills the entry at `100.1`, the exit at `109.89` and realises
`(109.89 - 100.1) * 50 = 489.5`; in general the exit fill is
`quote * (1 - slippage)` for LONG and `quote * (1 + slippage)` for SHORT,
the pnl is `(exit_fill - entry_fill) * qty` for LONG and
`(entry_fill - exit_fill) * qty` for SHORT, and the close credits capital
by `exit_fill * qty`. -/
theorem C2_round_trip_and_exit_rules (b : PaperBroker) (pos : Position) (price : ℚ)
    (ts r : Option String) (hpos : b.position = some pos) :
    (((PaperBroker.init 100000 (1/1000)).enter "LONG" 100 ⟨"NIFTY"⟩ (some "t0")).1.position
        = some ⟨"LONG", 1001/10, 50, ⟨"NIFTY"⟩⟩)
    ∧ ((((PaperBroker.init 100000 (1/1000)).enter "LONG" 100 ⟨"NIFTY"⟩ (some "t0")).1.exit
          110 (some "t1") (some "t")).1.closed_trades.map Trade.exit_price = [10989/100])
    ∧ ((((PaperBroker.init 100000 (1/1000)).enter "LONG" 100 ⟨"NIFTY"⟩ (some "t0")).1.exit
          110 (some "t1") (some "t")).2 = some ((10989/100 - 1001/10) * 50))
    ∧ ((10989/100 - 1001/10) * (50:ℚ) = 4895/10)
    ∧ (∃ tr : Trade,
        (b.exit price ts r).1.closed_trades = b.closed_trades ++ [tr]
        ∧ tr.qty = pos.qty
        ∧ (pos.side = "LONG" →
            tr.exit_price = price * (1 - b.slippage_pct)
            ∧ tr.pnl = (tr.exit_price - pos.entry) * (pos.qty : ℚ)
            ∧ (b.exit price ts r).2 = some tr.pnl)
        ∧ (pos.side = "SHORT" →
            tr.exit_price = price * (1 + b.slippage_pct)
            ∧ tr.pnl = (pos.entry - tr.exit_price) * (pos.qty : ℚ)
            ∧ (b.exit price ts r).2 = some tr.pnl)
        ∧ (b.exit price ts r).1.capital = b.capital + tr.exit_price * (pos.qty : ℚ)) := by
  refine ⟨?_, ?_, ?_, by norm_num, ?_⟩
  · norm_num [PaperBroker.init, PaperBroker.enter, PaperBroker.log_event, get_lot_size_eq]
  · norm_num [PaperBroker.init, PaperBroker.enter, PaperBroker.exit, PaperBroker.log_event,
      get_lot_size_eq]
  · norm_num [PaperBroker.init, PaperBroker.enter, PaperBroker.exit, PaperBroker.log_event,
      get_lot_size_eq]
  · simp only [PaperBroker.exit, hpos, PaperBroker.log_event]
    refine ⟨_, rfl, rfl, ?_, ?_, rfl⟩
    · intro hside
      rw [hside]
      refine ⟨by simp; ring, by simp, rfl⟩
    · intro hside
      rw [hside]
      refine ⟨by simp; ring, by simp, rfl⟩

theorem C2_witness :
    (((PaperBroker.init 100000 (1/1000)).enter "LONG" 100 ⟨"NIFTY"⟩ (some "t0")).1.exit
        110 (some "t1") (some "t")).2 = some ((10989/100 - 1001/10) * 50) :=
  (C2_round_trip_and_exit_rules
    ((PaperBroker.init 100000 (1/1000)).enter "LONG" 100 ⟨"NIFTY"⟩ (some "t0")).1
    ⟨"LONG", 1001/10, 50, ⟨"NIFTY"⟩⟩ 110 (some "t1") (some "t")
    (by norm_num [PaperBroker.init, PaperBroker.enter, PaperBroker.log_event,
      get_lot_size_eq])).2.2.1

/-- A successful `enter` from the flat state, written out as the explicit
resulting broker state. -/
theorem enter_flat_eq (b : PaperBroker) (side : String) (price : ℚ) (contract : Contract)
    (ts : Option String) (hflat : b.position = none)
    (hcap : ¬ b.capital < price * ((get_lot_size contract.symbol : ℕ) : ℚ)) :
    b.enter side price contract ts =
      ({ b with
          position := some
            { side := side
              entry := price +
                (if side = "LONG" then b.slippage_pct * price else -(b.slippage_pct * price))
              qty := get_lot_size contract.symbol
              contract := contract }
          open_time := ts
          capital := b.capital - price * ((get_lot_size contract.symbol : ℕ) : ℚ)
          log := b.log ++ [⟨"OPEN", "Entered " ++ side,
            b.capital - price * ((get_lot_size contract.symbol : ℕ) : ℚ)⟩] }, true) := by
  simp only [PaperBroker.enter, hflat, Option.isSome_none, Bool.false_eq_true, if_false,
    if_neg hcap, PaperBroker.log_event]

/-- `exit` on an open position, written out as the explicit resulting
broker state and returned pnl. -/
theorem exit_open_eq (b : PaperBroker) (pos : Position) (price : ℚ) (ts r : Option String)
    (hpos : b.position = some pos) :
    b.exit price ts r =
      (let fill := price -
          (if pos.side = "LONG" then b.slippage_pct * price else -(b.slippage_pct * price))
       let pnl := if pos.side = "LONG" then (fill - pos.entry) * (pos.qty : ℚ)
          else (pos.entry - fill) * (pos.qty : ℚ)
       ({ b with
          capital := b.capital + fill * (pos.qty : ℚ)
          closed_trades := b.closed_trades ++
            [{ side := pos.side, entry_price := pos.entry, exit_price := fill, qty := pos.qty
               contract := pos.contract, entry_time := b.open_time, exit_time := ts
               pnl := pnl, capital_post := b.capital + fill * (pos.qty : ℚ), reason := r }]
          position := none
          open_time := none
          log := b.log ++ [⟨"CLOSE", "Closed position", b.capital + fill * (pos.qty : ℚ)⟩] },
        some pnl)) := by
  simp only [PaperBroker.exit, hpos, PaperBroker.log_event]

/-- C10: for a LONG round trip from a fresh account, the capital change is
`(exit_fill - entry_quote) * qty`, which exceeds the recorded pnl by
exactly `slippage * entry_quote * qty`; hence with nonzero slippage and a
nonzero entry quote, `summary` has
`current_capital - initial_capital ≠ total_pnl`. -/
theorem C10_capital_pnl_mismatch (cap s q1 q2 : ℚ) (contract : Contract)
    (ts1 ts2 r : Option String) (hs : 0 < s) (hcap : ¬ cap < q1 * 50) :
    ((PaperBroker.init cap s).enter "LONG" q1 contract ts1).2 = true
    ∧ ((((PaperBroker.init cap s).enter "LONG" q1 contract ts1).1.exit q2 ts2 r).1.capital - cap
        = (q2 * (1 - s) - q1) * 50)
    ∧ (∃ p, (((PaperBroker.init cap s).enter "LONG" q1 contract ts1).1.exit q2 ts2 r).2 = some p
        ∧ ((((PaperBroker.init cap s).enter "LONG" q1 contract ts1).1.exit q2 ts2 r).1.capital - cap) - p
            = s * q1 * 50)
    ∧ (q1 ≠ 0 →
        (((PaperBroker.init cap s).enter "LONG" q1 contract ts1).1.exit q2 ts2 r).1.summary.current_capital
            - (((PaperBroker.init cap s).enter "LONG" q1 contract ts1).1.exit q2 ts2 r).1.summary.initial_capital
          ≠ (((PaperBroker.init cap s).enter "LONG" q1 contract ts1).1.exit q2 ts2 r).1.summary.total_pnl) := by
  have h50 : ((get_lot_size contract.symbol : ℕ) : ℚ) = 50 := by
    rw [get_lot_size_eq]; norm_num
  have hcap' : ¬ (PaperBroker.init cap s).capital
      < q1 * ((get_lot_size contract.symbol : ℕ) : ℚ) := by
    rw [h50]; exact hcap
  rw [enter_flat_eq (PaperBroker.init cap s) "LONG" q1 contract ts1 rfl hcap']
  rw [exit_open_eq _ _ q2 ts2 r rfl]
  simp only [PaperBroker.init, PaperBroker.summary, h50, if_pos rfl, ite_true,
    List.nil_append, List.map_cons, List.map_nil, List.sum_cons, List.sum_nil]
  refine ⟨trivial, by ring, ⟨_, rfl, by ring⟩, ?_⟩
  intro hq1 heq
  have h3 : s * q1 = 0 := by linear_combination heq / 50
  rcases mul_eq_zero.mp h3 with h4 | h4
  · exact absurd h4 (ne_of_gt hs)
  · exact hq1 h4

theorem C10_witness :
    (((PaperBroker.init 100000 (1/1000)).enter "LONG" 100 ⟨"NIFTY"⟩ (some "a")).1.exit
        110 (some "b") (some "c")).1.summary.current_capital
      - (((PaperBroker.init 100000 (1/1000)).enter "LONG" 100 ⟨"NIFTY"⟩ (some "a")).1.exit
        110 (some "b") (some "c")).1.summary.initial_capital
      ≠ (((PaperBroker.init 100000 (1/1000)).enter "LONG" 100 ⟨"NIFTY"⟩ (some "a")).1.exit
        110 (some "b") (some "c")).1.summary.total_pnl :=
  (C10_capital_pnl_mismatch 100000 (1/1000) 100 110 ⟨"NIFTY"⟩ (some "a") (some "b") (some "c")
    (by norm_num) (by norm_num)).2.2.2 (by norm_num)

/-- C1 (amended): the first `update` call on an unseeded tracker performs
the seed — `prev_close = prev_high = prev_low = close`,
`smoothed_true_range = 1e-9`, `smoothed_plus_dm = smoothed_minus_dm = 0`,
`trend_strength = 0` — and then continues with the normal update
computation against the seeded state; its return value is that computation
(0 when `high = low = close`, but not 0 in general). -/
theorem C1_first_update_seeds_then_computes (p h l c : ℚ) (prev0 : ADXPrev)
    (_hp : p ≠ 0) :
    ADXTracker.seed ⟨p, false, prev0⟩ c = ⟨p, true, ⟨c, c, c, 1/1000000000, 0, 0, 0⟩⟩
    ∧ ADXTracker.update ⟨p, false, prev0⟩ h l c
        = ADXTracker.update ⟨p, true, ⟨c, c, c, 1/1000000000, 0, 0, 0⟩⟩ h l c
    ∧ (h = c → l = c → (ADXTracker.update ⟨p, false, prev0⟩ h l c).2 = 0) := by
  refine ⟨rfl, rfl, ?_⟩
  rintro rfl rfl
  simp only [ADXTracker.update, ADXTracker.seed, dmStep, diNext, dxNext, adxNext]
  norm_num

/-- C1 is refuted as stated: on the unseeded period-14 tracker a first
call `update(2, 1, 1)` returns 100, not 0. -/
theorem C1_counterexample :
    (ADXTracker.init 14).ready = false
    ∧ ((ADXTracker.init 14).update 2 1 1).2 = 100
    ∧ ((ADXTracker.init 14).update 2 1 1).2 ≠ 0 := by
  have h100 : ((ADXTracker.init 14).update 2 1 1).2 = 100 := by
    norm_num [ADXTracker.init, ADXTracker.update, ADXTracker.seed, dmStep, diNext, dxNext, adxNext]
    rw [abs_of_pos (by norm_num), div_self (by norm_num)]
  exact ⟨rfl, h100, by rw [h100]; norm_num⟩

theorem C1_witness : (ADXTracker.update ⟨14, false, ⟨0, 0, 0, 0, 0, 0, 0⟩⟩ 5 5 5).2 = 0 :=
  (C1_first_update_seeds_then_computes 14 5 5 5 ⟨0, 0, 0, 0, 0, 0, 0⟩ (by norm_num)).2.2 rfl rfl

/-- C8 (amended): in the directional-movement step, when the raw moves tie
(`raw_plus_dm = raw_minus_dm`) the MINUS move is zeroed and the plus move
survives; otherwise only the strictly larger of the two survives and the
other is set to 0. -/
theorem C8_tie_keeps_plus_dm (high low prev_high prev_low : ℚ) :
    (max (high - prev_high) 0 = max (prev_low - low) 0 →
      dmStep high low prev_high prev_low = (max (high - prev_high) 0, 0))
    ∧ (max (high - prev_high) 0 < max (prev_low - low) 0 →
      dmStep high low prev_high prev_low = (0, max (prev_low - low) 0))
    ∧ (max (prev_low - low) 0 < max (high - prev_high) 0 →
      dmStep high low prev_high prev_low = (max (high - prev_high) 0, 0)) := by
  refine ⟨?_, ?_, ?_⟩
  · intro hcase
    simp only [dmStep]
    rw [if_neg (by rw [hcase]; exact lt_irrefl _)]
  · intro hcase
    simp only [dmStep]
    rw [if_pos hcase]
  · intro hcase
    simp only [dmStep]
    rw [if_neg (asymm hcase)]

/-- C8 is refuted as stated: at the tie `raw_plus_dm = raw_minus_dm = 1`
(update inputs `high=11, low=9` against `prev_high=prev_low=10`) the plus
move survives with value 1; it is not zeroed. -/
theorem C8_counterexample :
    max ((11:ℚ) - 10) 0 = max ((10:ℚ) - 9) 0
    ∧ dmStep 11 9 10 10 = (1, 0)
    ∧ (dmStep 11 9 10 10).1 ≠ 0 := by
  norm_num [dmStep, max_def]

theorem C8_witness : dmStep 11 9 10 10 = (max ((11:ℚ) - 10) 0, 0) :=
  (C8_tie_keeps_plus_dm 11 9 10 10).1 (by norm_num [max_def])

/-- Helper: `four_bar_signal` on a list ending in four explicit bars
reduces to the inner four-bar classification. -/
theorem four_bar_signal_append (pre : List TimedBar) (b0 b1 b2 b3 : TimedBar) :
    four_bar_signal (pre ++ [b0, b1, b2, b3]) =
      (let box_high := max (max (max b0.high b1.high) b2.high) b3.high
       let box_low := min (min (min b0.low b1.low) b2.low) b3.low
       if b1.close > b0.close ∧ b2.close > b1.close ∧ b3.close > b2.close then
         some { dir := "LONG", trigger := box_high, box_high := box_high, box_low := box_low }
       else if b1.close < b0.close ∧ b2.close < b1.close ∧ b3.close < b2.close then
         some { dir := "SHORT", trigger := box_low, box_high := box_high, box_low := box_low }
       else none) := by
  have hlen : (pre ++ [b0, b1, b2, b3]).length = pre.length + 4 := by
    simp [List.length_append]
  have hdrop : (pre ++ [b0, b1, b2, b3]).drop ((pre ++ [b0, b1, b2, b3]).length - 4)
      = [b0, b1, b2, b3] := by
    rw [hlen]
    have h4 : pre.length + 4 - 4 = pre.length := by omega
    rw [h4]
    exact List.drop_left pre [b0, b1, b2, b3]
  rw [four_bar_signal, if_neg (by omega), hdrop]

/-- C5: for at least 4 bars, the detector yields a LONG signal with
trigger `max high` of the last 4 iff the last 4 closes strictly increase,
a SHORT signal with trigger `min low` iff they strictly decrease, and no
signal otherwise — in particular whenever two consecutive closes are
equal — and always `none` for fewer than 4 bars. -/
theorem C5_four_bar_characterization :
    (∀ df : List TimedBar, df.length < 4 → four_bar_signal df = none)
    ∧ (∀ (pre : List TimedBar) (b0 b1 b2 b3 : TimedBar),
        ((b0.close < b1.close ∧ b1.close < b2.close ∧ b2.close < b3.close) →
          four_bar_signal (pre ++ [b0, b1, b2, b3])
            = some ⟨"LONG", max (max (max b0.high b1.high) b2.high) b3.high,
                max (max (max b0.high b1.high) b2.high) b3.high,
                min (min (min b0.low b1.low) b2.low) b3.low⟩)
        ∧ ((b1.close < b0.close ∧ b2.close < b1.close ∧ b3.close < b2.close) →
          four_bar_signal (pre ++ [b0, b1, b2, b3])
            = some ⟨"SHORT", min (min (min b0.low b1.low) b2.low) b3.low,
                max (max (max b0.high b1.high) b2.high) b3.high,
                min (min (min b0.low b1.low) b2.low) b3.low⟩)
        ∧ ((∃ s, four_bar_signal (pre ++ [b0, b1, b2, b3]) = some s ∧ s.dir = "LONG")
            ↔ (b0.close < b1.close ∧ b1.close < b2.close ∧ b2.close < b3.close))
        ∧ ((∃ s, four_bar_signal (pre ++ [b0, b1, b2, b3]) = some s ∧ s.dir = "SHORT")
            ↔ (b1.close < b0.close ∧ b2.close < b1.close ∧ b3.close < b2.close))
        ∧ ((b0.close = b1.close ∨ b1.close = b2.close ∨ b2.close = b3.close) →
          four_bar_signal (pre ++ [b0, b1, b2, b3]) = none)) := by
  constructor
  · intro df h
    rw [four_bar_signal, if_pos h]
  intro pre b0 b1 b2 b3
  rw [four_bar_signal_append]
  simp only []
  split_ifs with hinc hdec
  · refine ⟨fun _ => rfl, ?_, ?_, ?_, ?_⟩
    · rintro ⟨h1, -, -⟩
      exact absurd hinc.1 (asymm h1)
    · exact ⟨fun _ => hinc, fun _ => ⟨_, rfl, rfl⟩⟩
    · constructor
      · rintro ⟨s, hs, hdir⟩
        rw [Option.some.injEq] at hs
        subst hs
        simp at hdir
      · rintro ⟨h1, -, -⟩
        exact absurd hinc.1 (asymm h1)
    · rintro (h | h | h)
      · exact absurd hinc.1 (by rw [h]; exact lt_irrefl _)
      · exact absurd hinc.2.1 (by rw [h]; exact lt_irrefl _)
      · exact absurd hinc.2.2 (by rw [h]; exact lt_irrefl _)
  · refine ⟨?_, fun _ => rfl, ?_, ?_, ?_⟩
    · rintro ⟨h1, -, -⟩
      exact absurd hdec.1 (asymm h1)
    · constructor
      · rintro ⟨s, hs, hdir⟩
        rw [Option.some.injEq] at hs
        subst hs
        simp at hdir
      · rintro ⟨h1, -, -⟩
        exact absurd hdec.1 (asymm h1)
    · exact ⟨fun _ => hdec, fun _ => ⟨_, rfl, rfl⟩⟩
    · rintro (h | h | h)
      · exact absurd hdec.1 (by rw [h]; exact lt_irrefl _)
      · exact absurd hdec.2.1 (by rw [h]; exact lt_irrefl _)
      · exact absurd hdec.2.2 (by rw [h]; exact lt_irrefl _)
  · refine ⟨?_, ?_, ?_, ?_, fun _ => rfl⟩
    · intro h
      exact absurd h hinc
    · intro h
      exact absurd h hdec
    · constructor
      · rintro ⟨s, hs, -⟩
        exact hs.elim
      · intro h
        exact absurd h hinc
    · constructor
      · rintro ⟨s, hs, -⟩
        exact hs.elim
      · intro h
        exact absurd h hdec

theorem C5_witness : four_bar_signal [] = none :=
  C5_four_bar_characterization.1 [] (by norm_num)

/-- Helper: one aggregation step preserves well-formedness of every row. -/
theorem aggregate_wf_step (bars : List TimedBar) (slot : ℤ) (spot : ℚ)
    (hwf : ∀ b ∈ bars, BarWF b) : ∀ b ∈ aggregate bars slot spot, BarWF b := by
  intro b hb
  rcases hlast : bars.getLast? with - | lb
  · simp only [aggregate, hlast, List.mem_append, List.mem_singleton] at hb
    rcases hb with hb | hb
    · exact hwf b hb
    · subst hb
      exact ⟨le_refl _, le_refl _, le_refl _, le_refl _⟩
  · have hne : bars ≠ [] := by
      intro hnil
      rw [hnil] at hlast
      cases hlast
    have hlb : lb ∈ bars := by
      rw [List.getLast?_eq_getLast bars hne, Option.some.injEq] at hlast
      rw [← hlast]
      exact List.getLast_mem hne
    have hlbwf := hwf lb hlb
    simp only [aggregate, hlast] at hb
    split at hb
    · rcases List.mem_append.mp hb with hb' | hb'
      · exact hwf b hb'
      · rw [List.mem_singleton] at hb'
        subst hb'
        exact ⟨le_refl _, le_refl _, le_refl _, le_refl _⟩
    · rcases List.mem_append.mp hb with hb' | hb'
      · exact hwf b (List.mem_of_mem_dropLast hb')
      · rw [List.mem_singleton] at hb'
        subst hb'
        refine ⟨?_, ?_, ?_, ?_⟩
        · exact le_trans (min_le_left _ _) hlbwf.1
        · exact le_trans hlbwf.2.1 (le_max_left _ _)
        · exact min_le_right _ _
        · exact le_max_right _ _

/-- Helper: one aggregation step appends at most one row. -/
theorem aggregate_length (bars : List TimedBar) (slot : ℤ) (spot : ℚ) :
    (aggregate bars slot spot).length = bars.length
    ∨ (aggregate bars slot spot).length = bars.length + 1 := by
  rcases hlast : bars.getLast? with - | lb
  · right
    simp [aggregate, hlast]
  · have hne : bars ≠ [] := by
      intro hnil
      rw [hnil] at hlast
      cases hlast
    have hpos : 0 < bars.length := List.length_pos.mpr hne
    simp only [aggregate, hlast]
    split
    · right
      simp [List.length_append]
    · left
      simp only [List.length_append, List.length_dropLast, List.length_singleton]
      omega

/-- C9: each aggregation call appends at most one new bar, preserves
`low ≤ open ≤ high` and `low ≤ close ≤ high` for every maintained bar, and
along any quote sequence from the empty frame every bar is well formed. -/
theorem C9_aggregation_invariants :
    (∀ (bars : List TimedBar) (slot : ℤ) (spot : ℚ),
        (aggregate bars slot spot).length = bars.length
        ∨ (aggregate bars slot spot).length = bars.length + 1)
    ∧ (∀ (bars : List TimedBar) (slot : ℤ) (spot : ℚ),
        (∀ b ∈ bars, BarWF b) → ∀ b ∈ aggregate bars slot spot, BarWF b)
    ∧ (∀ (quotes : List (ℤ × ℚ)) (b : TimedBar),
        b ∈ quotes.foldl (fun acc q => aggregate acc q.1 q.2) [] → BarWF b) := by
  refine ⟨aggregate_length, aggregate_wf_step, ?_⟩
  have main : ∀ (quotes : List (ℤ × ℚ)) (acc : List TimedBar), (∀ b ∈ acc, BarWF b) →
      ∀ b ∈ quotes.foldl (fun acc q => aggregate acc q.1 q.2) acc, BarWF b := by
    intro quotes
    induction quotes with
    | nil =>
      intro acc hacc b hb
      exact hacc b hb
    | cons q rest ih =>
      intro acc hacc b hb
      rw [List.foldl_cons] at hb
      exact ih _ (aggregate_wf_step acc q.1 q.2 hacc) b hb
  intro quotes b hb
  refine main quotes [] ?_ b hb
  intro b hb
  cases hb

theorem C9_witness : BarWF ⟨0, 5, 5, 5, 5⟩ := by
  apply C9_aggregation_invariants.2.2 [(0, 5)] ⟨0, 5, 5, 5, 5⟩
  simp [aggregate]

/-- Both surviving directional moves are nonnegative. -/
theorem dmStep_nonneg (h l ph pl : ℚ) :
    0 ≤ (dmStep h l ph pl).1 ∧ 0 ≤ (dmStep h l ph pl).2 := by
  simp only [dmStep]
  split
  · exact ⟨le_refl 0, le_max_right _ _⟩
  · exact ⟨le_max_right _ _, le_refl 0⟩

/-- The true range is nonnegative (it dominates an absolute value). -/
theorem trueRange_nonneg (h l pc : ℚ) :
    0 ≤ max (h - l) (max |h - pc| |l - pc|) :=
  le_trans (abs_nonneg (h - pc)) (le_trans (le_max_left _ _) (le_max_right _ _))

/-- A Wilder-smoothed nonnegative series stays nonnegative when the
period exceeds 1. -/
theorem wilder_smooth_nonneg (p x r : ℚ) (hp : 1 < p) (hx : 0 ≤ x) (hr : 0 ≤ r) :
    0 ≤ x - x / p + r := by
  have hp0 : 0 < p := lt_trans zero_lt_one hp
  have hfac : 0 < 1 - 1 / p := by
    have h1 : 1 / p < 1 := by
      rw [div_lt_one hp0]
      exact hp
    linarith
  have key : x - x / p + r = x * (1 - 1 / p) + r := by ring
  rw [key]
  have hm := mul_nonneg hx (le_of_lt hfac)
  linarith

/-- A Wilder-smoothed positive series stays positive when the period
exceeds 1. -/
theorem wilder_smooth_pos (p x r : ℚ) (hp : 1 < p) (hx : 0 < x) (hr : 0 ≤ r) :
    0 < x - x / p + r := by
  have hp0 : 0 < p := lt_trans zero_lt_one hp
  have hfac : 0 < 1 - 1 / p := by
    have h1 : 1 / p < 1 := by
      rw [div_lt_one hp0]
      exact hp
    linarith
  have key : x - x / p + r = x * (1 - 1 / p) + r := by ring
  rw [key]
  have hm := mul_pos hx hfac
  linarith

/-- The directional index is nonnegative on nonnegative inputs. -/
theorem diNext_nonneg (tr_s dm_s : ℚ) (h1 : 0 ≤ tr_s) (h2 : 0 ≤ dm_s) :
    0 ≤ diNext tr_s dm_s := by
  rw [diNext]
  split
  · exact le_refl 0
  · exact mul_nonneg (by norm_num) (div_nonneg h2 h1)

/-- The `dx` ratio lies in `[0, 100]` on nonnegative directional
indices. -/
theorem dxNext_bounds (a b : ℚ) (ha : 0 ≤ a) (hb : 0 ≤ b) :
    0 ≤ dxNext a b ∧ dxNext a b ≤ 100 := by
  rw [dxNext]
  split
  · norm_num
  · rename_i hne
    have hsum : 0 < a + b := lt_of_le_of_ne (add_nonneg ha hb) (Ne.symm hne)
    have habs : |a - b| ≤ a + b := abs_sub_le_iff.mpr ⟨by linarith, by linarith⟩
    have hq : |a - b| / (a + b) ≤ 1 := (div_le_one hsum).mpr habs
    have hq0 : 0 ≤ |a - b| / (a + b) := div_nonneg (abs_nonneg _) (le_of_lt hsum)
    constructor
    · nlinarith
    · nlinarith

/-- The smoothed trend strength stays within `[0, 100]`. -/
theorem adxNext_bounds (p adx0 dx : ℚ) (hp : 1 < p)
    (h0 : 0 ≤ adx0) (h100 : adx0 ≤ 100) (hdx0 : 0 ≤ dx) (hdx100 : dx ≤ 100) :
    0 ≤ adxNext p adx0 dx ∧ adxNext p adx0 dx ≤ 100 := by
  have hp0 : 0 < p := lt_trans zero_lt_one hp
  rw [adxNext]
  split
  · exact ⟨hdx0, hdx100⟩
  · constructor
    · apply div_nonneg _ (le_of_lt hp0)
      nlinarith
    · rw [div_le_iff₀ hp0]
      nlinarith

/-- Seeding establishes the invariant. -/
theorem ADXInv_seed (t : ADXTracker) (c : ℚ) : ADXInv (t.seed c) :=
  ⟨by norm_num [ADXTracker.seed], le_refl 0, le_refl 0, le_refl 0,
    by norm_num [ADXTracker.seed]⟩

/-- One `update` preserves the invariant (seeding first when needed),
keeps the period, and returns a trend strength in `[0, 100]`. -/
theorem ADXInv_update (t : ADXTracker) (h l c : ℚ) (hp : 1 < t.p) (hinv : ADXInv t) :
    ADXInv (t.update h l c).1 ∧ (t.update h l c).1.p = t.p
    ∧ 0 ≤ (t.update h l c).2 ∧ (t.update h l c).2 ≤ 100 := by
  have core : ∀ prev : ADXPrev, 0 < prev.tr_s → 0 ≤ prev.pdm_s → 0 ≤ prev.mdm_s →
      0 ≤ prev.adx → prev.adx ≤ 100 →
      ADXInv (ADXTracker.update ⟨t.p, true, prev⟩ h l c).1
      ∧ (ADXTracker.update ⟨t.p, true, prev⟩ h l c).1.p = t.p
      ∧ 0 ≤ (ADXTracker.update ⟨t.p, true, prev⟩ h l c).2
      ∧ (ADXTracker.update ⟨t.p, true, prev⟩ h l c).2 ≤ 100 := by
    intro prev h1 h2 h3 h4 h5
    have htr := trueRange_nonneg h l prev.close
    have hdm := dmStep_nonneg h l prev.high prev.low
    have htrs := wilder_smooth_pos t.p prev.tr_s
      (max (h - l) (max |h - prev.close| |l - prev.close|)) hp h1 htr
    have hpdms := wilder_smooth_nonneg t.p prev.pdm_s
      (dmStep h l prev.high prev.low).1 hp h2 hdm.1
    have hmdms := wilder_smooth_nonneg t.p prev.mdm_s
      (dmStep h l prev.high prev.low).2 hp h3 hdm.2
    have hdi1 := diNext_nonneg _ _ (le_of_lt htrs) hpdms
    have hdi2 := diNext_nonneg _ _ (le_of_lt htrs) hmdms
    have hdx := dxNext_bounds _ _ hdi1 hdi2
    have hadx := adxNext_bounds t.p prev.adx _ hp h4 h5 hdx.1 hdx.2
    exact ⟨⟨htrs, hpdms, hmdms, hadx.1, hadx.2⟩, rfl, hadx.1, hadx.2⟩
  cases hr : t.ready with
  | false =>
    have hcore := core ⟨c, c, c, 1/1000000000, 0, 0, 0⟩ (by norm_num) (le_refl 0) (le_refl 0)
      (le_refl 0) (by norm_num)
    simp only [ADXTracker.update, ADXTracker.seed, hr, Bool.false_eq_true, if_false,
      eq_self_iff_true, if_true] at hcore ⊢
    exact hcore
  | true =>
    have ht : t = ⟨t.p, true, t.prev⟩ := by
      rw [← hr]
    rw [ht]
    exact core t.prev hinv.1 hinv.2.1 hinv.2.2.1 hinv.2.2.2.1 hinv.2.2.2.2

/-- C6: from any freshly seeded tracker with period above 1, along every
bar sequence the smoothed true range stays strictly positive (so the
guarded DI and DX ratios never divide by zero) and every returned trend
strength lies within `[0, 100]`. -/
theorem C6_trend_strength_bounds (p c0 : ℚ) (inputs : List (ℚ × ℚ × ℚ)) (hp : 1 < p) :
    0 < (runUpdates ((ADXTracker.init p).seed c0) inputs).1.prev.tr_s
    ∧ ∀ v ∈ (runUpdates ((ADXTracker.init p).seed c0) inputs).2, 0 ≤ v ∧ v ≤ 100 := by
  have main : ∀ (xs : List (ℚ × ℚ × ℚ)) (t : ADXTracker), 1 < t.p → ADXInv t →
      ADXInv (runUpdates t xs).1 ∧ ∀ v ∈ (runUpdates t xs).2, 0 ≤ v ∧ v ≤ 100 := by
    intro xs
    induction xs with
    | nil =>
      intro t hp1 hinv
      refine ⟨hinv, ?_⟩
      intro v hv
      cases hv
    | cons x rest ih =>
      intro t hp1 hinv
      have hstep := ADXInv_update t x.1 x.2.1 x.2.2 hp1 hinv
      have hrec := ih (t.update x.1 x.2.1 x.2.2).1 (by rw [hstep.2.1]; exact hp1) hstep.1
      refine ⟨hrec.1, ?_⟩
      intro v hv
      simp only [runUpdates, List.mem_cons] at hv
      rcases hv with hv | hv
      · rw [hv]
        exact ⟨hstep.2.2.1, hstep.2.2.2⟩
      · exact hrec.2 v hv
  have hmain := main inputs ((ADXTracker.init p).seed c0) hp (ADXInv_seed _ c0)
  exact ⟨hmain.1.1, hmain.2⟩

theorem C6_witness :
    0 < (runUpdates ((ADXTracker.init 14).seed 5) [(6, 4, 5)]).1.prev.tr_s
    ∧ ∀ v ∈ (runUpdates ((ADXTracker.init 14).seed 5) [(6, 4, 5)]).2, 0 ≤ v ∧ v ≤ 100 :=
  C6_trend_strength_bounds 14 5 [(6, 4, 5)] (by norm_num)

/-- C7 is refuted as stated: on the boundary tick where the bucket-0 bar
`(high 20, low 5, close 15)` has just completed and bucket 1 opened at
spot 7, the runner feeds the indicator `(7, 7, 7)` — built from the last
(current-bucket) row and the spot — and not the completed bar's
`(20, 5, 15)`. -/
theorem C7_counterexample :
    (([⟨0, 10, 20, 5, 15⟩, ⟨1, 7, 7, 7, 7⟩] : List TimedBar).filter
        (fun b => decide (b.slot ≤ (1:ℤ) - 1))) = [⟨0, 10, 20, 5, 15⟩]
    ∧ ((⟨0, 10, 20, 5, 15⟩ : TimedBar).high, (⟨0, 10, 20, 5, 15⟩ : TimedBar).low,
        (⟨0, 10, 20, 5, 15⟩ : TimedBar).close) = ((20:ℚ), (5:ℚ), (15:ℚ))
    ∧ fedBar [⟨0, 10, 20, 5, 15⟩, ⟨1, 7, 7, 7, 7⟩] (ADXTracker.init 14) 7 = (7, 7, 7)
    ∧ evalStep [⟨0, 10, 20, 5, 15⟩, ⟨1, 7, 7, 7, 7⟩] none (ADXTracker.init 14) 1 7
        = (some 0, ((ADXTracker.init 14).update 7 7 7).1,
           ((ADXTracker.init 14).update 7 7 7).2, none)
    ∧ ((7:ℚ), (7:ℚ), (7:ℚ)) ≠ ((20:ℚ), (5:ℚ), (15:ℚ)) := by
  refine ⟨?_, rfl, ?_, ?_, ?_⟩
  · norm_num [List.filter]
  · norm_num [fedBar, ADXTracker.init]
  · norm_num [evalStep, fedBar, ADXTracker.init, List.filter]
  · norm_num [Prod.ext_iff]

/-- C7 (amended): on a boundary tick the loop updates the TrendIndicator
before running the BreakoutDetector, but the `(high, low, close)` it
feeds is built from the indicator's previous close (the current spot when
unseeded) and the last row of the frame — the freshly opened current
bucket — not from the completed bar; the detector then runs over the rows
at or before the completed bucket. -/
theorem C7_eval_feeds_last_row (bars : List TimedBar) (lc : Option ℤ)
    (adx : ADXTracker) (slot : ℤ) (spot : ℚ)
    (hb : (match lc with | none => true | some v => decide (v < slot - 1)) = true) :
    evalStep bars lc adx slot spot
      = (some (slot - 1),
         (adx.update (fedBar bars adx spot).1 (fedBar bars adx spot).2.1
            (fedBar bars adx spot).2.2).1,
         (adx.update (fedBar bars adx spot).1 (fedBar bars adx spot).2.1
            (fedBar bars adx spot).2.2).2,
         if 4 ≤ (bars.filter (fun b => decide (b.slot ≤ slot - 1))).length then
           four_bar_signal (bars.filter (fun b => decide (b.slot ≤ slot - 1)))
         else none)
    ∧ fedBar bars adx spot
        = (max (if adx.ready then adx.prev.close else spot) (bars.getLast?.getD default).high,
           min (if adx.ready then adx.prev.close else spot) (bars.getLast?.getD default).low,
           (bars.getLast?.getD default).close) := by
  constructor
  · simp only [evalStep, hb, if_true]
  · rfl

theorem C7_witness :
    evalStep [] none (ADXTracker.init 14) 0 3
      = (some (0 - 1),
         ((ADXTracker.init 14).update (fedBar [] (ADXTracker.init 14) 3).1
            (fedBar [] (ADXTracker.init 14) 3).2.1 (fedBar [] (ADXTracker.init 14) 3).2.2).1,
         ((ADXTracker.init 14).update (fedBar [] (ADXTracker.init 14) 3).1
            (fedBar [] (ADXTracker.init 14) 3).2.1 (fedBar [] (ADXTracker.init 14) 3).2.2).2,
         if 4 ≤ (List.filter (fun b => decide (b.slot ≤ 0 - 1)) ([] : List TimedBar)).length then
           four_bar_signal (List.filter (fun b => decide (b.slot ≤ 0 - 1)) ([] : List TimedBar))
         else none) :=
  (C7_eval_feeds_last_row [] none (ADXTracker.init 14) 0 3 rfl).1
